import Mathlib

/-
Shallow embedding of the `terminal_dungeon` repository
(src/terminal_dungeon/{camera,engine,read_assets,sprite}.py).

Python floats are modelled as exact real numbers (ℝ) for the camera
(claims about exact real arithmetic and tolerances), and as exact
rationals (ℚ) for the movement code, where only comparisons of
truncated coordinates matter and decidability is wanted.
-/

namespace TerminalDungeon

open Real

noncomputable section

/-- A 2 by 2 real matrix, the type of `Camera._plane` (a numpy `(2, 2)`
float array).  Field `a` is entry `(0,0)`, `b` is `(0,1)`, `c` is `(1,0)`
and `d` is `(1,1)`. -/
@[ext]
structure M2 where
  a : ℝ
  b : ℝ
  c : ℝ
  d : ℝ

/-- Matrix product `m @ n` of two 2 by 2 matrices (numpy `@`):
entry `(i,j)` of the product is `sum k, m i k * n k j`. -/
def M2.mul (m n : M2) : M2 where
  a := m.a * n.a + m.b * n.c
  b := m.a * n.b + m.b * n.d
  c := m.c * n.a + m.d * n.c
  d := m.c * n.b + m.d * n.d

/-- `rotation_matrix` from camera.py: with `x = cos theta` and
`y = sin theta`, the array `[[x, y], [-y, x]]`. -/
def rotation_matrix (theta : ℝ) : M2 where
  a := Real.cos theta
  b := Real.sin theta
  c := -Real.sin theta
  d := Real.cos theta

/-- The fov clamp inlined in `Camera.__init__`:
`if fov > 1.0: fov = 1.0 elif fov < 0.0: fov = 0.0`. -/
def clampFov (fov : ℝ) : ℝ :=
  if fov > 1 then 1 else if fov < 0 then 0 else fov

/-- The `Camera` state: `pos` and `_plane`. -/
structure Camera where
  pos : ℝ × ℝ
  plane : M2

/-- `Camera._build_plane`: `[[1.001, 0.001], [0.0, fov]] @ rotation_matrix(theta)`. -/
def buildPlane (theta fov : ℝ) : M2 :=
  (M2.mk 1.001 0.001 0 fov).mul (rotation_matrix theta)

/-- `Camera.__init__(pos, theta, fov)`: stores `pos`, clamps `fov`
to `[0, 1]`, and builds the plane. -/
def Camera.init (pos : ℝ × ℝ) (theta fov : ℝ) : Camera where
  pos := pos
  plane := buildPlane theta (clampFov fov)

/-- The `Camera.theta` property: `x2, x1 = self._plane[0]; np.arctan2(x1, x2)`.
`np.arctan2 x1 x2` (principal value in `(-pi, pi]`, `0` at the origin) is
the argument of the complex number `x2 + x1 * I`. -/
def Camera.theta (c : Camera) : ℝ :=
  Complex.arg ((c.plane.a : ℂ) + (c.plane.b : ℂ) * Complex.I)

/-- The `Camera.fov` property: `np.linalg.norm(self._plane[1])`, the
Euclidean norm of the second row. -/
def Camera.fov (c : Camera) : ℝ :=
  Real.sqrt (c.plane.c ^ 2 + c.plane.d ^ 2)

/-- The `Camera.theta` setter: `self._build_plane(theta, self.fov)`. -/
def Camera.setTheta (c : Camera) (theta : ℝ) : Camera :=
  { c with plane := buildPlane theta c.fov }

/-- The `Camera.fov` setter: `self._build_plane(self.theta, fov)`.
Note that, unlike `__init__`, the setter does not clamp `fov`. -/
def Camera.setFov (c : Camera) (fov : ℝ) : Camera :=
  { c with plane := buildPlane c.theta fov }

/-- `Camera.rotate(theta)`: `self._plane = self._plane @ rotation_matrix(theta)`. -/
def Camera.rotate (c : Camera) (theta : ℝ) : Camera :=
  { c with plane := c.plane.mul (rotation_matrix theta) }

/-- The fixed angular offset of the direction row `[1.001, 0.001]` from
the x-axis: the plane built for direction `theta` has its first row at
angle `theta + perturbAngle`. -/
def perturbAngle : ℝ := Real.arctan (0.001 / 1.001)

/-- A concrete camera: `Camera(pos=(0.0, 0.0), theta=0.0, fov=0.66)`
(the constructor defaults). -/
def camera0 : Camera := Camera.init (0, 0) 0 0.66

/-- A concrete camera whose `theta` accessor is exactly `pi` (the edge of
the principal range): `Camera(pos=(0.0, 0.0), theta=pi - perturbAngle, fov=0.66)`. -/
def camera1 : Camera := Camera.init (0, 0) (Real.pi - perturbAngle) 0.66

end

/-- Python `int()` applied to an exact rational: truncation toward zero,
i.e. the truncated quotient of the numerator by the denominator. -/
def pyInt (q : ℚ) : ℤ :=
  q.num.tdiv q.den

/-- The truncated coordinates of a position index within a `w` by `h` map. -/
def inBounds (w h : ℕ) (p : ℚ × ℚ) : Prop :=
  0 ≤ pyInt p.1 ∧ pyInt p.1 < w ∧ 0 ≤ pyInt p.2 ∧ pyInt p.2 < h

/-- `_move_to(camera, game_map, pos)` from engine.py, as a function from
the camera's old position to its new position.  `cell i j` is
`game_map[i, j]` (the claim restricts all indices used to the map bounds,
where numpy indexing is plain lookup). -/
def move_to (cell : ℤ → ℤ → ℕ) (old_pos new_pos : ℚ × ℚ) : ℚ × ℚ :=
  if cell (pyInt new_pos.1) (pyInt new_pos.2) = 0 then
    (new_pos.1, new_pos.2)
  else if cell (pyInt new_pos.1) (pyInt old_pos.2) = 0 then
    (new_pos.1, old_pos.2)
  else if cell (pyInt old_pos.1) (pyInt new_pos.2) = 0 then
    (old_pos.1, new_pos.2)
  else
    (old_pos.1, old_pos.2)

instance (w h : ℕ) (p : ℚ × ℚ) : Decidable (inBounds w h p) := by
  unfold inBounds
  infer_instance

/-- A concrete 2 by 2 map for evaluating the movement code: a single wall
cell at `(1, 1)`, all other cells empty. -/
def exampleCell : ℤ → ℤ → ℕ := fun i j => if i = 1 ∧ j = 1 then 1 else 0

/-- The `Sprite` dataclass from sprite.py (float position modelled as ℚ). -/
structure Sprite where
  pos : ℚ × ℚ
  texture_index : ℕ
  deriving DecidableEq

/-- One record of the sprite JSON file: a `pos` pair and a `texture_index`. -/
structure SpriteJson where
  pos : ℚ × ℚ
  texture_index : ℕ
  deriving DecidableEq

/-- `iter_from_json` from read_assets.py: yields
`Sprite(pos=tuple(d["pos"]), texture_index=d["texture_index"])` for each
record `d` of the parsed JSON list. -/
def iter_from_json (data : List SpriteJson) : List Sprite :=
  data.map fun d => { pos := d.pos, texture_index := d.texture_index }

/-- Modelled from the spec: `raycaster.py` (imported by engine.py as
`from .raycaster import Raycaster`) is not among the available source
files.  Per spec section 7, "a sprite or wall texture index with no
matching loaded texture is a configuration error the core surfaces as a
fatal precondition violation at load time (caught before any `cast`
call)".  This is the precondition the `Raycaster` constructor checks:
every sprite's `texture_index` names a loaded sprite texture, and every
nonzero wall cell `N` names loaded wall texture `N - 1`. -/
def raycasterPrecondition (game_map : List (List ℕ))
    (num_wall_textures num_sprite_textures : ℕ) (sprites : List Sprite) : Bool :=
  sprites.all (fun s => decide (s.texture_index < num_sprite_textures)) &&
    game_map.all fun row =>
      row.all fun v => decide (v = 0) || decide (v - 1 < num_wall_textures)

/-- Modelled from the spec: `Engine.__post_init__` constructs
`Raycaster(self)` at load time; construction fails with a fatal
precondition violation when `raycasterPrecondition` does not hold
(spec section 7), and succeeds otherwise. -/
def engine_init (game_map : List (List ℕ))
    (num_wall_textures num_sprite_textures : ℕ) (sprites : List Sprite) :
    Except String Unit :=
  if raycasterPrecondition game_map num_wall_textures num_sprite_textures sprites then
    Except.ok ()
  else
    Except.error "texture index has no matching loaded texture"

/-- Python `int(cell)` for a single decimal-digit character. -/
def digit_value (cell : Char) : ℕ := cell.toNat - 48

/-- Numpy transpose `.T` of a 2-D array given as its list of rows: the
shape `(n, L)` (with `L` the common row length, read off the first row)
becomes `(L, n)`, and entry `(x, y)` of the result is entry `(y, x)` of
the input. -/
def npT (rows : List (List ℕ)) : List (List ℕ) :=
  match rows with
  | [] => []
  | r :: _ => (List.range r.length).map fun x => rows.map fun row => row.getD x 0

/-- `read_map` from read_assets.py on the list of lines of the text file:
`np.array([[int(cell) for cell in line] for line in text.splitlines()]).T`. -/
def read_map (lines : List (List Char)) : List (List ℕ) :=
  npT (lines.map fun line => line.map digit_value)

/-- Concrete sprite JSON records with a dangling texture index. -/
def exampleSpriteData : List SpriteJson := [{ pos := (0, 0), texture_index := 5 }]

/-- Concrete lines of a map text file: two lines, `12` and `34`. -/
def exampleLines : List (List Char) := [['1', '2'], ['3', '4']]

/-! Helper lemmas about the camera plane. -/

lemma clampFov_eq_max_min (fov : ℝ) : clampFov fov = max 0 (min 1 fov) := by
  rw [clampFov]
  split_ifs with h1 h2
  · rw [min_eq_left (by linarith), max_eq_right (by norm_num)]
  · rw [min_eq_right (by linarith), max_eq_left (by linarith)]
  · rw [min_eq_right (by linarith), max_eq_right (by linarith)]

lemma norm_row1_buildPlane (θ f : ℝ) :
    Real.sqrt ((buildPlane θ f).c ^ 2 + (buildPlane θ f).d ^ 2) = |f| := by
  simp only [buildPlane, M2.mul, rotation_matrix]
  rw [show (0 * Real.cos θ + f * -Real.sin θ) ^ 2 + (0 * Real.sin θ + f * Real.cos θ) ^ 2
        = f ^ 2 from by linear_combination f ^ 2 * Real.sin_sq_add_cos_sq θ]
  exact Real.sqrt_sq_eq_abs f

lemma fov_setFov (c : Camera) (f : ℝ) : (c.setFov f).fov = |f| := by
  simp only [Camera.setFov, Camera.fov]
  exact norm_row1_buildPlane c.theta f

lemma fov_nonneg (c : Camera) : 0 ≤ c.fov := Real.sqrt_nonneg _

lemma fov_setTheta (c : Camera) (θ : ℝ) : (c.setTheta θ).fov = c.fov := by
  have h : (c.setTheta θ).fov = |c.fov| := norm_row1_buildPlane θ c.fov
  rw [h, abs_of_nonneg (fov_nonneg c)]

lemma perturbAngle_pos : 0 < perturbAngle := by
  rw [perturbAngle, ← Real.arctan_zero]
  exact Real.arctan_strictMono (by norm_num)

lemma perturbAngle_lt_pi_div_two : perturbAngle < Real.pi / 2 :=
  Real.arctan_lt_pi_div_two _

lemma perturbAngle_le_tol : perturbAngle ≤ 1 / 1000 := by
  have h := Real.lt_tan perturbAngle_pos perturbAngle_lt_pi_div_two
  rw [perturbAngle, Real.tan_arctan] at h
  have hs : (0.001 / 1.001 : ℝ) ≤ 1 / 1000 := by norm_num
  rw [perturbAngle]
  linarith

lemma arg_row0_buildPlane (θ f : ℝ)
    (hθ : θ + perturbAngle ∈ Set.Ioc (-Real.pi) Real.pi) :
    Complex.arg (((buildPlane θ f).a : ℂ) + ((buildPlane θ f).b : ℂ) * Complex.I) =
      θ + perturbAngle := by
  have hsq : (0 : ℝ) < Real.sqrt (1 + (0.001 / 1.001 : ℝ) ^ 2) :=
    Real.sqrt_pos.mpr (by norm_num)
  have hrpos : (0 : ℝ) < 1.001 * Real.sqrt (1 + (0.001 / 1.001 : ℝ) ^ 2) := by
    have : (0 : ℝ) < 1.001 := by norm_num
    exact mul_pos this hsq
  have hcos : Real.cos perturbAngle = 1 / Real.sqrt (1 + (0.001 / 1.001 : ℝ) ^ 2) :=
    Real.cos_arctan _
  have hsin : Real.sin perturbAngle
      = (0.001 / 1.001) / Real.sqrt (1 + (0.001 / 1.001 : ℝ) ^ 2) :=
    Real.sin_arctan _
  have ha : (buildPlane θ f).a
      = 1.001 * Real.sqrt (1 + (0.001 / 1.001 : ℝ) ^ 2) * Real.cos (θ + perturbAngle) := by
    simp only [buildPlane, M2.mul, rotation_matrix]
    rw [Real.cos_add, hcos, hsin]
    field_simp
    ring
  have hb : (buildPlane θ f).b
      = 1.001 * Real.sqrt (1 + (0.001 / 1.001 : ℝ) ^ 2) * Real.sin (θ + perturbAngle) := by
    simp only [buildPlane, M2.mul, rotation_matrix]
    rw [Real.sin_add, hcos, hsin]
    field_simp
    ring
  rw [ha, hb]
  have hz : ((1.001 * Real.sqrt (1 + (0.001 / 1.001 : ℝ) ^ 2)
          * Real.cos (θ + perturbAngle) : ℝ) : ℂ)
        + ((1.001 * Real.sqrt (1 + (0.001 / 1.001 : ℝ) ^ 2)
          * Real.sin (θ + perturbAngle) : ℝ) : ℂ) * Complex.I
      = ((1.001 * Real.sqrt (1 + (0.001 / 1.001 : ℝ) ^ 2) : ℝ) : ℂ)
        * ((Real.cos (θ + perturbAngle) : ℂ) + (Real.sin (θ + perturbAngle) : ℂ) * Complex.I) := by
    push_cast
    ring
  rw [hz, Complex.arg_real_mul _ hrpos, Complex.ofReal_cos, Complex.ofReal_sin,
    Complex.arg_cos_add_sin_mul_I hθ]

lemma zero_add_perturb_mem : (0 : ℝ) + perturbAngle ∈ Set.Ioc (-Real.pi) Real.pi := by
  constructor
  · linarith [perturbAngle_pos, Real.pi_pos]
  · linarith [perturbAngle_lt_pi_div_two, Real.pi_pos]

lemma camera0_theta : camera0.theta = perturbAngle := by
  have h0 : clampFov 0.66 = 0.66 := by rw [clampFov]; norm_num
  have h : camera0.theta = Complex.arg (((buildPlane 0 (clampFov 0.66)).a : ℂ)
      + ((buildPlane 0 (clampFov 0.66)).b : ℂ) * Complex.I) := rfl
  rw [h, h0, arg_row0_buildPlane 0 0.66 zero_add_perturb_mem, zero_add]

lemma camera0_mem : camera0.theta + perturbAngle ∈ Set.Ioc (-Real.pi) Real.pi := by
  rw [camera0_theta]
  constructor
  · linarith [perturbAngle_pos, Real.pi_pos]
  · linarith [perturbAngle_lt_pi_div_two, Real.pi_pos]

lemma camera1_theta : camera1.theta = Real.pi := by
  have h0 : clampFov 0.66 = 0.66 := by rw [clampFov]; norm_num
  have hmem : (Real.pi - perturbAngle) + perturbAngle ∈ Set.Ioc (-Real.pi) Real.pi := by
    constructor
    · linarith [Real.pi_pos]
    · linarith
  have h : camera1.theta
      = Complex.arg (((buildPlane (Real.pi - perturbAngle) (clampFov 0.66)).a : ℂ)
        + ((buildPlane (Real.pi - perturbAngle) (clampFov 0.66)).b : ℂ) * Complex.I) := rfl
  rw [h, h0, arg_row0_buildPlane _ 0.66 hmem]
  ring

/-! Claim theorems: fov clamping, construction, rotation. -/

/-- C1 (evidence of the code bug): the `fov` setter does not clamp.
Setting `fov = 2.0` on a freshly constructed default camera stores a
plane whose recovered fov is `2.0`, not `1.0`. -/
theorem fov_setter_unclamped : (camera0.setFov 2).fov = 2 := by
  rw [fov_setFov]
  norm_num

/-- C2: construction stores the given position and builds the plane as
the matrix product of `[[1.001, 0.001], [0, fov clamped to [0,1]]]` with
the rotation matrix of `theta`. -/
theorem init_stores_pos_and_plane (pos : ℝ × ℝ) (theta fov : ℝ) :
    (Camera.init pos theta fov).pos = pos ∧
      (Camera.init pos theta fov).plane =
        (M2.mk 1.001 0.001 0 (max 0 (min 1 fov))).mul (rotation_matrix theta) := by
  refine ⟨rfl, ?_⟩
  simp only [Camera.init, buildPlane, clampFov_eq_max_min]

/-- C3: `rotate` right-multiplies the plane by the rotation matrix and
leaves the position unchanged. -/
theorem rotate_updates_plane_fixes_pos (c : Camera) (theta : ℝ) :
    (c.rotate theta).plane = c.plane.mul (rotation_matrix theta) ∧
      (c.rotate theta).pos = c.pos :=
  ⟨rfl, rfl⟩

/-- C4: rotating by `theta` and then by `-theta` restores the plane
exactly, in exact real arithmetic. -/
theorem rotate_rotate_neg_restores_plane (c : Camera) (theta : ℝ) :
    ((c.rotate theta).rotate (-theta)).plane = c.plane := by
  obtain ⟨pos, a, b, c', d⟩ := c
  simp only [Camera.rotate, M2.mul, rotation_matrix, Real.cos_neg, Real.sin_neg]
  ext
  · linear_combination a * Real.sin_sq_add_cos_sq theta
  · linear_combination b * Real.sin_sq_add_cos_sq theta
  · linear_combination c' * Real.sin_sq_add_cos_sq theta
  · linear_combination d * Real.sin_sq_add_cos_sq theta

/-- C9: the recovered fov (norm of plane row 1) is unchanged by
`rotate`, in exact real arithmetic. -/
theorem rotate_preserves_fov (c : Camera) (theta : ℝ) :
    (c.rotate theta).fov = c.fov := by
  obtain ⟨pos, a, b, c', d⟩ := c
  simp only [Camera.fov, Camera.rotate, M2.mul, rotation_matrix]
  congr 1
  linear_combination (c' ^ 2 + d ^ 2) * Real.sin_sq_add_cos_sq theta

/-- C5 counterexample: setting theta to `2 * pi` does not make the theta
accessor return `2 * pi` within tolerance: the accessor is a principal
value in `(-pi, pi]` and returns `perturbAngle`, more than `1` radian
away from `2 * pi`. -/
theorem setTheta_two_pi_not_recovered :
    1 < |(camera0.setTheta (2 * Real.pi)).theta - 2 * Real.pi| := by
  have hplane : buildPlane (2 * Real.pi) camera0.fov = buildPlane 0 camera0.fov := by
    simp only [buildPlane, rotation_matrix, Real.cos_two_pi, Real.sin_two_pi,
      Real.cos_zero, Real.sin_zero]
  have h : (camera0.setTheta (2 * Real.pi)).theta
      = Complex.arg (((buildPlane (2 * Real.pi) camera0.fov).a : ℂ)
        + ((buildPlane (2 * Real.pi) camera0.fov).b : ℂ) * Complex.I) := rfl
  rw [h, hplane, arg_row0_buildPlane 0 camera0.fov zero_add_perturb_mem, zero_add]
  have h3 := Real.pi_gt_three
  have h4 := perturbAngle_le_tol
  rw [abs_sub_comm, abs_of_pos (by linarith)]
  linarith

/-- C5 (amended): for every camera, after `set_theta θ` with
`θ + arctan(0.001/1.001)` in the principal range `(-pi, pi]` the theta
accessor returns `θ` within `1/1000` (the exact offset is the direction
row's perturbation angle `arctan(0.001/1.001)`), and after `set_fov f`
with `f ∈ [0, 1]` the fov accessor returns `f` exactly. -/
theorem setters_recover_values (c : Camera) (θ f : ℝ)
    (hf0 : 0 ≤ f) (hf1 : f ≤ 1)
    (hθ : θ + perturbAngle ∈ Set.Ioc (-Real.pi) Real.pi) :
    |(c.setTheta θ).theta - θ| ≤ 1 / 1000 ∧ (c.setFov f).fov = f := by
  constructor
  · have h : (c.setTheta θ).theta
        = Complex.arg (((buildPlane θ c.fov).a : ℂ)
          + ((buildPlane θ c.fov).b : ℂ) * Complex.I) := rfl
    rw [h, arg_row0_buildPlane θ c.fov hθ, add_sub_cancel_left,
      abs_of_pos perturbAngle_pos]
    exact perturbAngle_le_tol
  · rw [fov_setFov, abs_of_nonneg hf0]

/-- C5 witness: the amended claim holds at the default camera with
`θ = 0` and `f = 1/2`. -/
theorem setters_recover_values_witness :
    (0 : ℝ) ≤ 1 / 2 ∧ (1 / 2 : ℝ) ≤ 1
      ∧ ((0 : ℝ) + perturbAngle ∈ Set.Ioc (-Real.pi) Real.pi)
      ∧ (|(camera0.setTheta 0).theta - 0| ≤ 1 / 1000
        ∧ (camera0.setFov (1 / 2)).fov = 1 / 2) :=
  ⟨by norm_num, by norm_num, zero_add_perturb_mem,
    setters_recover_values camera0 0 (1 / 2) (by norm_num) (by norm_num)
      zero_add_perturb_mem⟩

/-- C6 counterexample: at a camera whose theta accessor is exactly `pi`
(built with `theta = pi - perturbAngle`), setting the fov wraps the theta
accessor past the principal-range boundary to `-pi + perturbAngle`,
changing it by almost `2 * pi` — far more than any tolerance. -/
theorem setFov_theta_wraps_at_pi :
    1 < |(camera1.setFov (1 / 2)).theta - camera1.theta| := by
  have h : (camera1.setFov (1 / 2)).theta
      = Complex.arg (((buildPlane camera1.theta (1 / 2)).a : ℂ)
        + ((buildPlane camera1.theta (1 / 2)).b : ℂ) * Complex.I) := rfl
  have hpl : buildPlane Real.pi (1 / 2 : ℝ) = buildPlane (-Real.pi) (1 / 2 : ℝ) := by
    simp only [buildPlane, rotation_matrix, Real.cos_neg, Real.sin_neg, Real.sin_pi,
      neg_zero]
  have hmem : -Real.pi + perturbAngle ∈ Set.Ioc (-Real.pi) Real.pi := by
    constructor
    · linarith [perturbAngle_pos]
    · linarith [perturbAngle_lt_pi_div_two, Real.pi_pos]
  rw [h, camera1_theta, hpl, arg_row0_buildPlane _ _ hmem]
  have h3 := Real.pi_gt_three
  have h4 := perturbAngle_le_tol
  rw [show -Real.pi + perturbAngle - Real.pi = -(2 * Real.pi - perturbAngle) from by ring,
    abs_neg, abs_of_pos (by linarith)]
  linarith

/-- C6 (amended): `set_theta` leaves the fov accessor exactly unchanged;
`set_fov` changes the theta accessor by exactly the perturbation angle
`arctan(0.001/1.001)` (mod `2 * pi`), so as long as the current theta
plus that angle stays in the principal range `(-pi, pi]`, the theta
accessor moves by at most `1/1000`. -/
theorem setters_preserve_other (c : Camera) (θ f : ℝ)
    (hc : c.theta + perturbAngle ∈ Set.Ioc (-Real.pi) Real.pi) :
    (c.setTheta θ).fov = c.fov ∧ |(c.setFov f).theta - c.theta| ≤ 1 / 1000 := by
  refine ⟨fov_setTheta c θ, ?_⟩
  have h : (c.setFov f).theta
      = Complex.arg (((buildPlane c.theta f).a : ℂ)
        + ((buildPlane c.theta f).b : ℂ) * Complex.I) := rfl
  rw [h, arg_row0_buildPlane _ _ hc, add_sub_cancel_left,
    abs_of_pos perturbAngle_pos]
  exact perturbAngle_le_tol

/-- C6 witness: the amended claim holds at the default camera with
`θ = 1` and `f = 1/2`. -/
theorem setters_preserve_other_witness :
    (camera0.theta + perturbAngle ∈ Set.Ioc (-Real.pi) Real.pi)
      ∧ ((camera0.setTheta 1).fov = camera0.fov
        ∧ |(camera0.setFov (1 / 2)).theta - camera0.theta| ≤ 1 / 1000) :=
  ⟨camera0_mem, setters_preserve_other camera0 1 (1 / 2) camera0_mem⟩

/-- C7: collision-adjusted movement goes to the target if its cell is
empty, else slides along the x axis, else along the y axis, else stays;
a camera starting in an empty cell never ends in a wall cell. -/
theorem move_to_spec (cell : ℤ → ℤ → ℕ) (w h : ℕ) (old_pos new_pos : ℚ × ℚ)
    (hold : inBounds w h old_pos) (hnew : inBounds w h new_pos) :
    (cell (pyInt new_pos.1) (pyInt new_pos.2) = 0 →
      move_to cell old_pos new_pos = new_pos) ∧
    (cell (pyInt new_pos.1) (pyInt new_pos.2) ≠ 0 →
      cell (pyInt new_pos.1) (pyInt old_pos.2) = 0 →
      move_to cell old_pos new_pos = (new_pos.1, old_pos.2)) ∧
    (cell (pyInt new_pos.1) (pyInt new_pos.2) ≠ 0 →
      cell (pyInt new_pos.1) (pyInt old_pos.2) ≠ 0 →
      cell (pyInt old_pos.1) (pyInt new_pos.2) = 0 →
      move_to cell old_pos new_pos = (old_pos.1, new_pos.2)) ∧
    (cell (pyInt new_pos.1) (pyInt new_pos.2) ≠ 0 →
      cell (pyInt new_pos.1) (pyInt old_pos.2) ≠ 0 →
      cell (pyInt old_pos.1) (pyInt new_pos.2) ≠ 0 →
      move_to cell old_pos new_pos = old_pos) ∧
    (cell (pyInt old_pos.1) (pyInt old_pos.2) = 0 →
      cell (pyInt (move_to cell old_pos new_pos).1)
        (pyInt (move_to cell old_pos new_pos).2) = 0) := by
  unfold move_to
  split_ifs with h1 h2 h3 <;> simp_all

/-- C7 witness: the theorem applied to the concrete 2 by 2 map with a
wall at cell `(1, 1)`, moving from `(0, 0)` toward `(1, 1)`
(the move slides to `(1, 0)`). -/
theorem move_to_spec_witness :
    inBounds 2 2 ((0 : ℚ), (0 : ℚ)) ∧ inBounds 2 2 ((1 : ℚ), (1 : ℚ)) ∧
      ((exampleCell (pyInt (1 : ℚ)) (pyInt (1 : ℚ)) = 0 →
        move_to exampleCell ((0 : ℚ), (0 : ℚ)) ((1 : ℚ), (1 : ℚ))
          = ((1 : ℚ), (1 : ℚ))) ∧
      (exampleCell (pyInt (1 : ℚ)) (pyInt (1 : ℚ)) ≠ 0 →
        exampleCell (pyInt (1 : ℚ)) (pyInt (0 : ℚ)) = 0 →
        move_to exampleCell ((0 : ℚ), (0 : ℚ)) ((1 : ℚ), (1 : ℚ))
          = ((1 : ℚ), (0 : ℚ))) ∧
      (exampleCell (pyInt (1 : ℚ)) (pyInt (1 : ℚ)) ≠ 0 →
        exampleCell (pyInt (1 : ℚ)) (pyInt (0 : ℚ)) ≠ 0 →
        exampleCell (pyInt (0 : ℚ)) (pyInt (1 : ℚ)) = 0 →
        move_to exampleCell ((0 : ℚ), (0 : ℚ)) ((1 : ℚ), (1 : ℚ))
          = ((0 : ℚ), (1 : ℚ))) ∧
      (exampleCell (pyInt (1 : ℚ)) (pyInt (1 : ℚ)) ≠ 0 →
        exampleCell (pyInt (1 : ℚ)) (pyInt (0 : ℚ)) ≠ 0 →
        exampleCell (pyInt (0 : ℚ)) (pyInt (1 : ℚ)) ≠ 0 →
        move_to exampleCell ((0 : ℚ), (0 : ℚ)) ((1 : ℚ), (1 : ℚ))
          = ((0 : ℚ), (0 : ℚ))) ∧
      (exampleCell (pyInt (0 : ℚ)) (pyInt (0 : ℚ)) = 0 →
        exampleCell
          (pyInt (move_to exampleCell ((0 : ℚ), (0 : ℚ)) ((1 : ℚ), (1 : ℚ))).1)
          (pyInt (move_to exampleCell ((0 : ℚ), (0 : ℚ)) ((1 : ℚ), (1 : ℚ))).2)
          = 0)) :=
  ⟨by decide, by decide,
    move_to_spec exampleCell 2 2 ((0 : ℚ), (0 : ℚ)) ((1 : ℚ), (1 : ℚ))
      (by decide) (by decide)⟩

/-- C8 (spec-modelled raycaster precondition): a configuration in which
some sprite's texture index, or some nonzero wall cell's texture index,
has no matching loaded texture makes engine construction fail at load
time with a fatal precondition violation. -/
theorem dangling_texture_index_fails_at_load (game_map : List (List ℕ))
    (num_wall_textures num_sprite_textures : ℕ) (data : List SpriteJson)
    (hbad : (∃ s ∈ iter_from_json data, num_sprite_textures ≤ s.texture_index)
      ∨ ∃ row ∈ game_map, ∃ v ∈ row, v ≠ 0 ∧ num_wall_textures ≤ v - 1) :
    engine_init game_map num_wall_textures num_sprite_textures (iter_from_json data)
      = Except.error "texture index has no matching loaded texture" := by
  have hfalse : raycasterPrecondition game_map num_wall_textures num_sprite_textures
      (iter_from_json data) = false := by
    rw [Bool.eq_false_iff]
    intro htrue
    rw [raycasterPrecondition, Bool.and_eq_true, List.all_eq_true, List.all_eq_true]
      at htrue
    obtain ⟨hsp, hmap⟩ := htrue
    rcases hbad with ⟨s, hs, hle⟩ | ⟨row, hrow, v, hv, hvne, hle⟩
    · have hlt := hsp s hs
      rw [decide_eq_true_eq] at hlt
      omega
    · have hr := hmap row hrow
      rw [List.all_eq_true] at hr
      have hvlt := hr v hv
      rw [Bool.or_eq_true, decide_eq_true_eq, decide_eq_true_eq] at hvlt
      rcases hvlt with h0 | hlt
      · exact hvne h0
      · omega
  simp [engine_init, hfalse]

/-- C8 witness: a single sprite with `texture_index = 5` against one
loaded sprite texture makes engine construction fail. -/
theorem dangling_texture_index_fails_at_load_witness :
    ((∃ s ∈ iter_from_json exampleSpriteData, 1 ≤ s.texture_index)
      ∨ ∃ row ∈ [[(0 : ℕ)]], ∃ v ∈ row, v ≠ 0 ∧ 0 ≤ v - 1)
      ∧ engine_init [[(0 : ℕ)]] 0 1 (iter_from_json exampleSpriteData)
        = Except.error "texture index has no matching loaded texture" :=
  ⟨by decide,
    dangling_texture_index_fails_at_load [[(0 : ℕ)]] 0 1 exampleSpriteData (by decide)⟩

lemma npT_length (r0 : List ℕ) (rest : List (List ℕ)) :
    (npT (r0 :: rest)).length = r0.length := by
  simp [npT]

lemma npT_mem_length (rows : List (List ℕ)) (col : List ℕ) (hcol : col ∈ npT rows) :
    col.length = rows.length := by
  cases rows with
  | nil => simp [npT] at hcol
  | cons r rest =>
    simp only [npT, List.mem_map] at hcol
    obtain ⟨x, hx, rfl⟩ := hcol
    simp

lemma npT_get (r0 : List ℕ) (rest : List (List ℕ)) (x y : ℕ)
    (hx : x < r0.length) (hy : y < (r0 :: rest).length) :
    ((npT (r0 :: rest)).getD x []).getD y 0 = ((r0 :: rest).getD y []).getD x 0 := by
  have h1 : (npT (r0 :: rest)).getD x []
      = (r0 :: rest).map fun row => row.getD x 0 := by
    rw [npT, List.getD_eq_getElem _ _ (by simpa using hx), List.getElem_map,
      List.getElem_range]
  have h2 : ((r0 :: rest).map fun row => row.getD x 0).getD y 0
      = ((r0 :: rest).getD y []).getD x 0 := by
    rw [List.getD_eq_getElem _ _ (by simpa using hy), List.getElem_map,
      List.getD_eq_getElem _ _ hy]
  rw [h1, h2]

lemma getD_map_digit_rows (lines : List (List Char)) (y : ℕ) (hy : y < lines.length) :
    (lines.map fun line => line.map digit_value).getD y []
      = (lines.getD y []).map digit_value := by
  rw [List.getD_eq_getElem _ _ (by simpa using hy), List.getElem_map,
    List.getD_eq_getElem _ _ hy]

lemma getD_map_digit_line (line : List Char) (x : ℕ) (hx : x < line.length) :
    (line.map digit_value).getD x 0 = digit_value (line.getD x ' ') := by
  rw [List.getD_eq_getElem _ _ (by simpa using hx), List.getElem_map,
    List.getD_eq_getElem _ _ hx]

/-- C10: on a nonempty rectangular digit file, `read_map` returns the
transposed array: shape `(L, number of lines)`, entry `(x, y)` the digit
at column `x` of line `y`. -/
theorem read_map_transposes (lines : List (List Char)) (L : ℕ)
    (hne : lines ≠ [])
    (hlen : ∀ line ∈ lines, line.length = L)
    (hdig : ∀ line ∈ lines, ∀ ch ∈ line, ch.isDigit) :
    (read_map lines).length = L
      ∧ (∀ col ∈ read_map lines, col.length = lines.length)
      ∧ ∀ x, x < L → ∀ y, y < lines.length →
          ((read_map lines).getD x []).getD y 0
            = digit_value ((lines.getD y []).getD x ' ') := by
  obtain ⟨l0, rest, rfl⟩ : ∃ l0 rest, lines = l0 :: rest := by
    cases lines with
    | nil => exact absurd rfl hne
    | cons a as => exact ⟨a, as, rfl⟩
  have hL0 : l0.length = L := hlen l0 (List.mem_cons_self l0 rest)
  refine ⟨?_, ?_, ?_⟩
  · rw [read_map, List.map_cons, npT_length, List.length_map, hL0]
  · intro col hcol
    rw [read_map, List.map_cons] at hcol
    have := npT_mem_length _ col hcol
    simpa using this
  · intro x hx y hy
    have hxl : x < (l0.map digit_value).length := by
      rw [List.length_map, hL0]; exact hx
    have hline : x < ((l0 :: rest).getD y ([] : List Char)).length := by
      rw [List.getD_eq_getElem _ _ hy, hlen _ (List.getElem_mem hy)]
      exact hx
    rw [read_map, List.map_cons,
      npT_get (l0.map digit_value) (List.map (fun line => line.map digit_value) rest)
        x y hxl (by simpa using hy),
      ← List.map_cons, getD_map_digit_rows (l0 :: rest) y hy,
      getD_map_digit_line _ x hline]

/-- C10 witness: the theorem applied to the concrete two-line file
`12` / `34`. -/
theorem read_map_transposes_witness :
    exampleLines ≠ []
      ∧ (∀ line ∈ exampleLines, line.length = 2)
      ∧ (∀ line ∈ exampleLines, ∀ ch ∈ line, ch.isDigit)
      ∧ ((read_map exampleLines).length = 2
        ∧ (∀ col ∈ read_map exampleLines, col.length = exampleLines.length)
        ∧ ∀ x, x < 2 → ∀ y, y < exampleLines.length →
            ((read_map exampleLines).getD x []).getD y 0
              = digit_value ((exampleLines.getD y []).getD x ' ')) :=
  ⟨by decide, by decide, by decide,
    read_map_transposes exampleLines 2 (by decide) (by decide) (by decide)⟩

end TerminalDungeon
